import Mathlib

/-!
Verification development for the TransIns pre- and postprocessing service
(src/main/python/PrePostProcessingServer.py and tokenizeExtended.py).

Python strings are modelled as lists of characters (`Str`); the external
sacremoses / subword-nmt / sentencepiece components, which the service
calls as black boxes, are modelled as explicit function parameters
(`Externals`, `TokenizerBase`).  Everything the repository itself
implements - the request handlers, the per-sentence pipelines, the
leading-tag protection loops, the registry initialization and the
Catalan tokenizer/detokenizer extension - is translated directly from
the Python source.
-/

namespace TransIns

/-- Sentence text, modelled as the list of its characters. -/
abbrev Str := List Char

/-- Whitespace as recognized by Python's str.split / str.strip
(restricted to the ASCII whitespace characters, which is all the
pipeline ever produces). -/
def isPyWs (c : Char) : Bool :=
  c = ' ' || c = '\t' || c = '\n' || c = '\r' || c = '\x0b' || c = '\x0c'

/-- The three Okapi tag marker code points U+E101, U+E102, U+E103 that
the server tests with re.search in preprocess_sentence and
postprocess_sentence. -/
def isTagChar (c : Char) : Bool :=
  c = '' || c = '' || c = ''

/-- A token carries a tag signature when it contains one of the three
marker code points (the disjunction of the three re.search calls). -/
def hasTagSig (t : Str) : Bool := t.any isTagChar

/-- Helper for Python's str.split() with no argument: split on
whitespace runs, discarding empty pieces.  `acc` is the token being
built, reversed. -/
def pySplitGo : Str → Str → List Str
  | [], acc => if acc = [] then [] else [acc.reverse]
  | c :: rest, acc =>
    if isPyWs c then
      if acc = [] then pySplitGo rest [] else acc.reverse :: pySplitGo rest []
    else pySplitGo rest (c :: acc)

/-- Python str.split() with no argument. -/
def pySplit (s : Str) : List Str := pySplitGo s []

/-- Python ' '.join(tokens). -/
def joinSp : List Str → Str
  | [] => []
  | [t] => t
  | t :: ts => t ++ ' ' :: joinSp ts

/-- Python str.strip(): drop leading and trailing whitespace. -/
def stripStr (s : Str) : Str :=
  (((s.dropWhile isPyWs).reverse).dropWhile isPyWs).reverse

/-- The leading-tag removal loop of preprocess_sentence (lines 147-157):
while more than one token remains and the first token carries a tag
signature, move the first TWO tokens (an Okapi tag is split into two
tokens before truecasing) to the removed-token accumulator.  Returns
(removed tokens, remaining tokens). -/
def protectLeading2 : List Str → List Str × List Str
  | a :: b :: rest =>
    if hasTagSig a then
      let pr := protectLeading2 rest
      (a :: b :: pr.fst, pr.snd)
    else ([], a :: b :: rest)
  | l => ([], l)

/-- The leading-tag removal loop of postprocess_sentence (lines 252-262):
while more than one token remains and the first token carries a tag
signature, move the first ONE token (a tag is a single merged token in
model output) to the removed-token accumulator. -/
def protectLeading1 : List Str → List Str × List Str
  | a :: b :: rest =>
    if hasTagSig a then
      let pr := protectLeading1 (b :: rest)
      (a :: pr.fst, pr.snd)
    else ([], a :: b :: rest)
  | l => ([], l)

/-! ## Catalan tokenizer extension (tokenizeExtended.py, MosesTokenizerExtended)

The overridden tokenize method runs, for lang = "ca", the two regex
substitutions CA_MIDDLE_DOT and CA_MIDDLE_DOT_NO_LOWER_FOLLOW defined in
this repository, sandwiched between helper stages inherited from the
external sacremoses MosesTokenizer base class.  Those inherited stages
(regex constants and helper methods of the external library) are kept
abstract as fields of `TokenizerBase`; theorems about concrete inputs
hypothesize only that they leave the concrete strings involved
unchanged, which holds for the real library because the strings contain
none of the characters those stages rewrite. -/

/-- Lowercase ASCII letter, the character class a-z of
CA_MIDDLE_DOT_NO_LOWER_FOLLOW. -/
def isAsciiLower (c : Char) : Bool := 'a' ≤ c && c ≤ 'z'

/-- The helper stages of the external sacremoses MosesTokenizer base
class that the overridden tokenize method invokes, in source order:
DEDUPLICATE_SPACE, ASCII_JUNK, the perluniprops IsAlnum class used
inside CA_MIDDLE_DOT, AGGRESSIVE_HYPHEN_SPLIT, replace_multidots, the
three COMMA_SEPARATE rules, FR_IT_SPECIFIC_APOSTROPHE,
handles_nonbreaking_prefixes, TRAILING_DOT_APOSTROPHE,
restore_multidots and escape_xml. -/
structure TokenizerBase where
  dedupSpace : Str → Str
  asciiJunk : Str → Str
  isAlnum : Char → Bool
  aggressiveHyphenSplit : Str → Str
  replaceMultidots : Str → Str
  commaSeparate : Str → Str
  frItApostropheSub : Str → Str
  handlesNonbreaking : Str → Str
  trailingDotApos : Str → Str
  restoreMultidots : Str → Str
  escapeXml : Str → Str

/-- The characters excluded, besides IsAlnum and whitespace, by the
CA_MIDDLE_DOT character class of tokenizeExtended.py line 13:
period, apostrophe, backtick (written by code point), comma, hyphen and
the middle dot itself. -/
def caPadExceptions : List Char := ['.', Char.ofNat 39, Char.ofNat 96, ',', '-', '·']

/-- CA_MIDDLE_DOT (tokenizeExtended.py line 13): pad every character
outside IsAlnum, whitespace and the excluded punctuation with spaces. -/
def caMiddleDotSub (alnum : Char → Bool) : Str → Str
  | [] => []
  | c :: rest =>
    if alnum c || isPyWs c || caPadExceptions.contains c then
      c :: caMiddleDotSub alnum rest
    else
      ' ' :: c :: ' ' :: caMiddleDotSub alnum rest

/-- CA_MIDDLE_DOT_NO_LOWER_FOLLOW (tokenizeExtended.py line 14): the
global substitution of the regex (·)([^a-z]) by the replacement
group-one, space, middle dot, space, group-two - note the replacement
inserts a SECOND middle dot after the matched one.  Matches are scanned
left to right without overlap, as re.sub does. -/
def caMiddleDotNoLowerSub : Str → Str
  | c1 :: c2 :: rest =>
    if c1 = '·' && !(isAsciiLower c2) then
      '·' :: ' ' :: '·' :: ' ' :: c2 :: caMiddleDotNoLowerSub rest
    else
      c1 :: caMiddleDotNoLowerSub (c2 :: rest)
  | l => l

/-- MosesTokenizerExtended.tokenize (tokenizeExtended.py lines 16-135)
for lang = "ca", protected_patterns = None and return_str = False,
stage for stage in source order. -/
def tokenizeCa (base : TokenizerBase) (aggressiveDash escape : Bool) (text : Str) :
    List Str :=
  let text := base.asciiJunk (base.dedupSpace text)
  let text := stripStr text
  let text := caMiddleDotSub base.isAlnum text
  let text := caMiddleDotNoLowerSub text
  let text := if aggressiveDash then base.aggressiveHyphenSplit text else text
  let text := base.replaceMultidots text
  let text := base.commaSeparate text
  let text := base.frItApostropheSub text
  let text := base.handlesNonbreaking text
  let text := stripStr (base.dedupSpace text)
  let text := base.trailingDotApos text
  let text := base.restoreMultidots text
  let text := if escape then base.escapeXml text else text
  pySplit text

/-- The external base stages leave the string `s` unchanged.  For the
real sacremoses stages this holds of every string free of control
characters, multiple dots, commas, apostrophes, ordinary-token periods,
XML special characters and duplicate spaces. -/
def BaseInertOn (base : TokenizerBase) (s : Str) : Prop :=
  base.dedupSpace s = s ∧ base.asciiJunk s = s ∧ base.replaceMultidots s = s ∧
  base.commaSeparate s = s ∧ base.frItApostropheSub s = s ∧
  base.handlesNonbreaking s = s ∧ base.trailingDotApos s = s ∧
  base.restoreMultidots s = s ∧ base.escapeXml s = s

/-- A base-stage instantiation in which every inherited stage is the
identity, used to evaluate the Catalan-specific stages in isolation. -/
def inertBase : TokenizerBase where
  dedupSpace := id
  asciiJunk := id
  isAlnum := Char.isAlphanum
  aggressiveHyphenSplit := id
  replaceMultidots := id
  commaSeparate := id
  frItApostropheSub := id
  handlesNonbreaking := id
  trailingDotApos := id
  restoreMultidots := id
  escapeXml := id

/-! ## Catalan detokenizer extension (tokenizeExtended.py, MosesDetokenizerExtended)

MosesDetokenizerExtended.detokenize dispatches on the instance's
mutable language flag; the base class detokenization (the inherited
method named tokenize, dispatching on the flag at call time) is the
external black box `base`.  The mutable flag is modelled by explicit
state passing: the function returns the detokenized text together with
the flag's value after the call. -/

/-- Python str.split(" ") on a single space: split at every space
character, keeping empty pieces; the empty string yields one empty
piece. -/
def splitSingleSpace : Str → List Str
  | [] => [[]]
  | ' ' :: rest => [] :: splitSingleSpace rest
  | c :: rest =>
    match splitSingleSpace rest with
    | t :: ts => (c :: t) :: ts
    | [] => [[c]]

/-- MosesDetokenizerExtended.detokenize (tokenizeExtended.py lines
143-156).  `base lang toks return_str unescape` is the inherited
MosesDetokenizer detokenization as dispatched on the language flag
`lang`; the result pairs the detokenized text with the language flag
the instance holds after the call. -/
def detokenizeExt (base : Str → List Str → Bool → Bool → Str)
    (lang : Str) (tokens : List Str) (return_str unescape : Bool) :
    Str × Str :=
  if lang = "ca".toList then
    let t1 := base "fr".toList tokens return_str unescape
    let toks2 := splitSingleSpace t1
    let t2 := base "es".toList toks2 return_str unescape
    (t2, "ca".toList)
  else
    (base lang tokens return_str unescape, lang)


/-! ## Server model (PrePostProcessingServer.py)

Direction keys, language codes and configuration values are Python
strings, modelled as `Str`.  The external sacremoses, subword-nmt and
sentencepiece components the server holds in its global maps are
abstract function fields of `Externals`; the maps themselves are
represented by the key lists of `Registry` (membership in
moses_truecaser, bpe_encoder, sentence_piece). -/

/-- Python str.lower() (ASCII range, which covers the direction keys
and language codes the service handles). -/
def pyLower (s : Str) : Str := s.map Char.toLower

/-- Python str.split on a hyphen, keeping empty pieces, as used for
trans_dir.split with the separator written as a hyphen. -/
def splitOnHyphen : Str → List Str
  | [] => [[]]
  | '-' :: rest => [] :: splitOnHyphen rest
  | c :: rest =>
    match splitOnHyphen rest with
    | t :: ts => (c :: t) :: ts
    | [] => [[c]]

/-- The source language of a direction: trans_dir.split on hyphen,
element zero (preprocess_sentence line 123). -/
def sourceLangOf (d : Str) : Str := (splitOnHyphen d).headD []

/-- The target language of a direction: trans_dir.split on hyphen,
element one (postprocess_sentence line 244).  Python raises IndexError
when the direction has no hyphen; directions are of the form
source-target, and the model totalizes that case with the empty
string. -/
def targetLangOf (d : Str) : Str := ((splitOnHyphen d).drop 1).headD []

/-- The three per-direction boolean configuration flags the pipeline
reads with getboolean. -/
structure DirFlags where
  replace_unicode_punctuation : Bool
  escape_xml_symbols : Bool
  aggressive_hyphen_splitting : Bool
deriving DecidableEq

/-- A config.ini section for one translation direction: the four
resource path values read by init (before stripping). -/
structure DirSection where
  truecaser_model : Str
  bpe_codes : Str
  bpe_vocabulary : Str
  sentencepiece_model : Str
deriving DecidableEq

/-- The global maps built by init, represented by their key lists:
supported_trans_dirs, and the domains of moses_punct_normalizer (= the
languages seen), moses_truecaser, bpe_encoder and sentence_piece. -/
structure Registry where
  supported : List Str
  langs : List Str
  truecaserDirs : List Str
  bpeDirs : List Str
  spDirs : List Str
deriving DecidableEq

/-- The registry before any section is processed. -/
def emptyRegistry : Registry :=
  { supported := [], langs := [], truecaserDirs := [], bpeDirs := [], spDirs := [] }

/-- One iteration of the init loop (PrePostProcessingServer.py lines
304-341): lower-case the section name, append it to the supported
directions, record each new language of the direction, and register the
truecaser, BPE encoder and SentencePiece model if and only if the
respective stripped path value is non-empty.  No combination of paths
is rejected: the loop body contains no validation of the subtokenizer
configuration. -/
def initDir (st : Registry) (name : Str) (sec : DirSection) : Registry :=
  let d := pyLower name
  { supported := st.supported ++ [d]
    langs := (splitOnHyphen d).foldl
      (fun ls l => if l ∈ ls then ls else ls ++ [l]) st.langs
    truecaserDirs :=
      if 0 < (stripStr sec.truecaser_model).length
      then st.truecaserDirs ++ [d] else st.truecaserDirs
    bpeDirs :=
      if 0 < (stripStr sec.bpe_codes).length
      then st.bpeDirs ++ [d] else st.bpeDirs
    spDirs :=
      if 0 < (stripStr sec.sentencepiece_model).length
      then st.spDirs ++ [d] else st.spDirs }

/-- The init function over all config sections, in order.  Loading of
the model files themselves is external input-output and out of scope;
init raises no error of its own. -/
def initRegistry (sections : List (Str × DirSection)) : Registry :=
  sections.foldl (fun st p => initDir st p.fst p.snd) emptyRegistry

/-- The two supported subtokenization types (constants ST_BPE and
ST_SENTENCE_PIECE). -/
inductive SubtokType where
  | BPE
  | SENTENCE_PIECE
deriving DecidableEq

/-- Subtokenization type resolution (lines 83-88 and 204-209):
membership in bpe_encoder is tested first, then sentence_piece, else
None. -/
def subtokTypeOf (reg : Registry) (d : Str) : Option SubtokType :=
  if d ∈ reg.bpeDirs then some SubtokType.BPE
  else if d ∈ reg.spDirs then some SubtokType.SENTENCE_PIECE
  else none

/-- The external components the pipeline calls as black boxes, keyed
the way the server's global maps are keyed: punctuation normalizer and
tokenizer by source language, truecaser, BPE encoder and SentencePiece
model by direction, detokenizer by target language. -/
structure Externals where
  replace_unicode_punct : Str → Str → Str
  normalize : Str → Str → Str
  tokenize : Str → Bool → Bool → Str → List Str
  truecase : Str → Str → List Str
  detruecase : Str → List Str
  bpe_process_line : Str → Str → Str
  sp_encode : Str → Str → List Str
  detokenize : Str → Bool → List Str → Str

/-- The punctuation normalization stage of preprocess_sentence (lines
126-129): optional unicode punctuation replacement, then
normalization, both with the source language's normalizer. -/
def normStage (ext : Externals) (cfg : Str → DirFlags) (d : Str) (s : Str) : Str :=
  let s := if (cfg d).replace_unicode_punctuation
           then ext.replace_unicode_punct (sourceLangOf d) s else s
  ext.normalize (sourceLangOf d) s

/-- The truecasing step (lines 143-160) on a token list: remove the
leading tag run at two-token granularity, truecase the space-joined
remainder, and splice the removed tokens back in front.  `tc` is the
direction's truecaser. -/
def truecaseStage (tc : Str → List Str) (toks : List Str) : List Str :=
  let pr := protectLeading2 toks
  pr.fst ++ tc (joinSp pr.snd)

/-- The detruecasing step (lines 248-264) on a token list: remove the
leading tag run at one-token granularity, detruecase the space-joined
remainder, and splice the removed tokens back in front. -/
def detruecaseStage (dtc : Str → List Str) (toks : List Str) : List Str :=
  let pr := protectLeading1 toks
  pr.fst ++ dtc (joinSp pr.snd)

/-- The BPE final merge (lines 166-173): append each token, without a
following space when the token carries a tag signature and with one
otherwise. -/
def mergeTagTokens : List Str → Str
  | [] => []
  | t :: rest => (if hasTagSig t then t else t ++ [' ']) ++ mergeTagTokens rest

/-- The SentencePiece tag padding (line 178): the global substitution
surrounding every tag marker character together with its successor
character by spaces; the regex dot does not match a newline. -/
def spPadTags : Str → Str
  | c1 :: c2 :: rest =>
    if isTagChar c1 && c2 ≠ '\n' then
      ' ' :: c1 :: c2 :: ' ' :: spPadTags rest
    else
      c1 :: spPadTags (c2 :: rest)
  | l => l

/-- preprocess_sentence (lines 113-184).  `cfg` is the configuration
section lookup, `tds` the key set of moses_truecaser.  The pair `pr`
tracks the Python locals sentence and sentence_as_tokens after the
truecasing block: when no truecaser is configured the string local
still holds the normalized untokenized sentence, so the BPE encoder
then runs over the untokenized string. -/
def preprocess_sentence (ext : Externals) (cfg : Str → DirFlags) (tds : List Str)
    (s : Str) (d : Str) (subtok : Option SubtokType) : Str :=
  let sentence := normStage ext cfg d s
  let toks0 := pySplit sentence
  let toks1 :=
    if subtok = some SubtokType.BPE then
      ext.tokenize (sourceLangOf d) ((cfg d).escape_xml_symbols)
        ((cfg d).aggressive_hyphen_splitting) sentence
    else toks0
  let pr :=
    if d ∈ tds then
      let toks := truecaseStage (ext.truecase d) toks1
      (joinSp toks, toks)
    else (sentence, toks1)
  match subtok with
  | some SubtokType.BPE =>
      stripStr (mergeTagTokens (pySplit (ext.bpe_process_line d pr.fst)))
  | some SubtokType.SENTENCE_PIECE =>
      joinSp ((ext.sp_encode d (spPadTags pr.fst)).filter (fun t => t ≠ ['▁']))
  | none => pr.fst

/-- The detruecasing block of postprocess_sentence (lines 246-265):
split the sentence, and when a truecaser is configured for the
direction apply the detruecase step; returns the Python locals
(sentence, sentence_as_tokens) after the block. -/
def postprocessCasing (ext : Externals) (tds : List Str) (d : Str) (s : Str) :
    Str × List Str :=
  let toks := pySplit s
  if d ∈ tds then
    let toks := detruecaseStage ext.detruecase toks
    (joinSp toks, toks)
  else (s, toks)

/-- postprocess_sentence (lines 234-273): detruecase when a truecaser
is configured, then detokenize the token list with the target
language's detokenizer if and only if the direction uses BPE, with
unescape equal to the direction's escape_xml_symbols flag. -/
def postprocess_sentence (ext : Externals) (cfg : Str → DirFlags) (tds : List Str)
    (s : Str) (d : Str) (subtok : Option SubtokType) : Str :=
  let pr := postprocessCasing ext tds d s
  if subtok = some SubtokType.BPE then
    ext.detokenize (targetLangOf d) ((cfg d).escape_xml_symbols) pr.snd
  else pr.fst

/-- The request-level errors the two endpoints abort with, each an
HTTP 400 with its own message. -/
inductive ServerError where
  | missingTransDir
  | unsupportedDirection
  | missingSentence
deriving DecidableEq

/-- The whole service after init: the registry, the per-direction
configuration flags and the external tools. -/
structure App where
  reg : Registry
  cfg : Str → DirFlags
  ext : Externals

/-- The preprocess GET handler (lines 66-97): require the trans_dir
argument, LOWER-CASE it, check it against the supported directions,
resolve the subtokenization type, require the sentence argument, and
return the preprocessed sentence.  An Option argument set to none
models a missing request argument. -/
def preprocessGet (app : App) (transDirArg : Option Str) (sentenceArg : Option Str) :
    Except ServerError Str :=
  match transDirArg with
  | none => Except.error ServerError.missingTransDir
  | some td0 =>
    let td := pyLower td0
    if td ∈ app.reg.supported then
      match sentenceArg with
      | none => Except.error ServerError.missingSentence
      | some s =>
        Except.ok (preprocess_sentence app.ext app.cfg app.reg.truecaserDirs s td
          (subtokTypeOf app.reg td))
    else Except.error ServerError.unsupportedDirection

/-- The postprocess GET handler (lines 187-218): require the trans_dir
argument and check it VERBATIM - this handler does not lower-case it
(line 198) - then require the sentence argument and return the
postprocessed sentence. -/
def postprocessGet (app : App) (transDirArg : Option Str) (sentenceArg : Option Str) :
    Except ServerError Str :=
  match transDirArg with
  | none => Except.error ServerError.missingTransDir
  | some td =>
    if td ∈ app.reg.supported then
      match sentenceArg with
      | none => Except.error ServerError.missingSentence
      | some s =>
        Except.ok (postprocess_sentence app.ext app.cfg app.reg.truecaserDirs s td
          (subtokTypeOf app.reg td))
    else Except.error ServerError.unsupportedDirection

/-- A simple concrete instantiation of the external components, used
to evaluate the in-scope glue on concrete inputs. -/
def constExternals : Externals where
  replace_unicode_punct := fun _ s => s
  normalize := fun _ s => s
  tokenize := fun _ _ _ s => pySplit s
  truecase := fun _ s => pySplit s
  detruecase := fun s => pySplit s
  bpe_process_line := fun _ s => s
  sp_encode := fun _ s => pySplit s
  detokenize := fun _ _ toks => joinSp toks

/-- A configuration section with a BPE codes path and nothing else. -/
def bpeOnlySection : DirSection :=
  { truecaser_model := [], bpe_codes := "codes.bpe".toList,
    bpe_vocabulary := [], sentencepiece_model := [] }

/-- A configuration section naming both a BPE codes path and a
SentencePiece model path. -/
def bothSection : DirSection :=
  { truecaser_model := [], bpe_codes := "codes.bpe".toList,
    bpe_vocabulary := [], sentencepiece_model := "model.spm".toList }

/-- A configuration section naming neither subtokenizer path. -/
def neitherSection : DirSection :=
  { truecaser_model := [], bpe_codes := [],
    bpe_vocabulary := [], sentencepiece_model := [] }

/-- A concrete service instance supporting the single direction en-de
on the BPE path, with all flags off. -/
def demoApp : App where
  reg := initRegistry [("en-de".toList, bpeOnlySection)]
  cfg := fun _ => { replace_unicode_punctuation := false,
                    escape_xml_symbols := false,
                    aggressive_hyphen_splitting := false }
  ext := constExternals

/-- The external bundle with its SentencePiece encoder replaced, used
to state that a computation never consults the SentencePiece model. -/
def withSpEncode (ext : Externals) (f : Str → Str → List Str) : Externals :=
  { ext with sp_encode := f }

/-- The external bundle with its detokenizer replaced, used to state
that a computation never consults the detokenizer. -/
def withDetokenize (ext : Externals) (f : Str → Bool → List Str → Str) : Externals :=
  { ext with detokenize := f }

/-! ## Helper lemmas about the whitespace split, join, strip and the
BPE tag merge -/

/-- Every token of the whitespace split is non-empty and free of
whitespace characters. -/
theorem pySplitGo_tokens_good (s : Str) :
    ∀ acc : Str, (∀ c ∈ acc, isPyWs c = false) →
      ∀ t ∈ pySplitGo s acc, t ≠ [] ∧ ∀ c ∈ t, isPyWs c = false := by
  induction s with
  | nil =>
    intro acc hacc t ht
    simp only [pySplitGo] at ht
    by_cases h : acc = []
    · simp [h] at ht
    · simp [h] at ht
      subst ht
      refine ⟨by simpa using h, ?_⟩
      intro c hc
      exact hacc c (by simpa using hc)
  | cons c rest ih =>
    intro acc hacc t ht
    simp only [pySplitGo] at ht
    by_cases hws : isPyWs c
    · simp only [hws, if_true] at ht
      by_cases h : acc = []
      · simp only [h, if_pos rfl] at ht
        exact ih [] (by simp) t ht
      · simp only [if_neg h] at ht
        rcases List.mem_cons.mp ht with h1 | h2
        · subst h1
          refine ⟨by simpa using h, ?_⟩
          intro x hx
          exact hacc x (by simpa using hx)
        · exact ih [] (by simp) t h2
    · simp only [hws, if_false] at ht
      refine ih (c :: acc) ?_ t ht
      intro x hx
      rcases List.mem_cons.mp hx with h1 | h2
      · subst h1; simpa using hws
      · exact hacc x h2

/-- Feeding a whitespace-free chunk into the split accumulates it. -/
theorem pySplitGo_append_chunk (t : Str) :
    ∀ (acc r : Str), (∀ c ∈ t, isPyWs c = false) →
      pySplitGo (t ++ r) acc = pySplitGo r (t.reverse ++ acc) := by
  induction t with
  | nil => intro acc r _; simp
  | cons c t ih =>
    intro acc r h
    have hc : isPyWs c = false := h c (by simp)
    have step : pySplitGo ((c :: t) ++ r) acc = pySplitGo (t ++ r) (c :: acc) := by
      simp only [List.cons_append, pySplitGo, hc]
      simp
    rw [step, ih (c :: acc) r (fun x hx => h x (by simp [hx]))]
    simp

/-- Splitting an all-whitespace string yields no tokens. -/
theorem pySplitGo_all_ws (w : Str) (hw : ∀ c ∈ w, isPyWs c = true) :
    pySplitGo w [] = [] := by
  induction w with
  | nil => simp [pySplitGo]
  | cons c rest ih =>
    have hc := hw c (by simp)
    simp only [pySplitGo, hc, if_true, if_pos rfl]
    exact ih (fun x hx => hw x (by simp [hx]))

/-- An all-whitespace suffix does not change the whitespace split. -/
theorem pySplitGo_append_ws (l : Str) :
    ∀ (w acc : Str), (∀ c ∈ w, isPyWs c = true) →
      pySplitGo (l ++ w) acc = pySplitGo l acc := by
  induction l with
  | nil =>
    intro w acc hw
    simp only [List.nil_append, pySplitGo]
    induction w with
    | nil => simp [pySplitGo]
    | cons c rest ihw =>
      have hc := hw c (by simp)
      simp only [pySplitGo, hc, if_true]
      have hrest : pySplitGo rest [] = [] :=
        pySplitGo_all_ws rest (fun x hx => hw x (by simp [hx]))
      by_cases h : acc = [] <;> simp [h, hrest]
  | cons c rest ih =>
    intro w acc hw
    simp only [List.cons_append, pySplitGo]
    by_cases hc : isPyWs c
    · simp only [hc, if_true]
      by_cases h : acc = [] <;> simp [h, ih w [] hw]
    · simp [hc, ih w (c :: acc) hw]

/-- Leading whitespace does not change the whitespace split. -/
theorem pySplitGo_dropWhile (l : Str) :
    pySplitGo (l.dropWhile isPyWs) [] = pySplitGo l [] := by
  induction l with
  | nil => rfl
  | cons c rest ih =>
    by_cases hc : isPyWs c
    · simpa [List.dropWhile_cons, hc, pySplitGo] using ih
    · simp [List.dropWhile_cons, hc]

/-- Python strip does not change the whitespace split. -/
theorem pySplit_stripStr (s : Str) : pySplit (stripStr s) = pySplit s := by
  unfold pySplit stripStr
  set m := s.dropWhile isPyWs with hm
  have hdecomp : m = (m.reverse.dropWhile isPyWs).reverse ++ (m.reverse.takeWhile isPyWs).reverse := by
    have := List.takeWhile_append_dropWhile (p := isPyWs) (l := m.reverse)
    calc m = m.reverse.reverse := by rw [List.reverse_reverse]
    _ = (m.reverse.takeWhile isPyWs ++ m.reverse.dropWhile isPyWs).reverse := by rw [this]
    _ = (m.reverse.dropWhile isPyWs).reverse ++ (m.reverse.takeWhile isPyWs).reverse := by
          rw [List.reverse_append]
  have hws : ∀ c ∈ (m.reverse.takeWhile isPyWs).reverse, isPyWs c = true := by
    intro c hc
    exact List.mem_takeWhile_imp (by simpa using hc)
  calc pySplitGo ((m.reverse.dropWhile isPyWs).reverse) []
      = pySplitGo ((m.reverse.dropWhile isPyWs).reverse ++ (m.reverse.takeWhile isPyWs).reverse) [] := by
        rw [pySplitGo_append_ws _ _ _ hws]
    _ = pySplitGo m [] := by rw [← hdecomp]
    _ = pySplitGo s [] := pySplitGo_dropWhile s

/-- Splitting the space-join of non-empty whitespace-free tokens
recovers the tokens. -/
theorem pySplit_joinSp (toks : List Str)
    (h : ∀ t ∈ toks, t ≠ [] ∧ ∀ c ∈ t, isPyWs c = false) :
    pySplit (joinSp toks) = toks := by
  induction toks with
  | nil => rfl
  | cons t ts ih =>
    rcases h t (by simp) with ⟨hne, hok⟩
    cases ts with
    | nil =>
      unfold pySplit
      have : joinSp [t] = t ++ [] := by simp [joinSp]
      rw [this, pySplitGo_append_chunk t [] [] hok]
      simp only [pySplitGo, List.append_nil]
      have : ¬ t.reverse = [] := by simpa using hne
      simp [this]
    | cons t2 ts2 =>
      have hjoin : joinSp (t :: t2 :: ts2) = t ++ ' ' :: joinSp (t2 :: ts2) := rfl
      unfold pySplit
      rw [hjoin, pySplitGo_append_chunk t _ (' ' :: joinSp (t2 :: ts2)) hok]
      have hsp : isPyWs ' ' = true := by decide
      simp only [pySplitGo, hsp, if_true, List.append_nil]
      have hne' : ¬ t.reverse = [] := by simpa using hne
      simp only [hne', if_false, List.reverse_reverse]
      have := ih (fun x hx => h x (by simp [hx]))
      unfold pySplit at this
      rw [this]

/-- On tokens free of tag signatures the BPE final merge is the space
join followed by one trailing space. -/
theorem mergeTagTokens_noTags (toks : List Str)
    (h : ∀ t ∈ toks, hasTagSig t = false) (hne : toks ≠ []) :
    mergeTagTokens toks = joinSp toks ++ [' '] := by
  induction toks with
  | nil => exact absurd rfl hne
  | cons t ts ih =>
    have ht := h t (by simp)
    cases ts with
    | nil => simp [mergeTagTokens, ht, joinSp]
    | cons t2 ts2 =>
      have : mergeTagTokens (t :: t2 :: ts2) = (t ++ [' ']) ++ mergeTagTokens (t2 :: ts2) := by
        simp [mergeTagTokens, ht]
      rw [this, ih (fun x hx => h x (by simp [hx])) (by simp)]
      simp [joinSp]

/-- The composite fact the round trip needs: stripping the tag merge of
good tag-free tokens and splitting again recovers the tokens. -/
theorem pySplit_strip_merge (toks : List Str)
    (hgood : ∀ t ∈ toks, t ≠ [] ∧ ∀ c ∈ t, isPyWs c = false)
    (htags : ∀ t ∈ toks, hasTagSig t = false) :
    pySplit (stripStr (mergeTagTokens toks)) = toks := by
  rw [pySplit_stripStr]
  cases toks with
  | nil => rfl
  | cons t ts =>
    rw [mergeTagTokens_noTags _ htags (by simp)]
    unfold pySplit
    rw [pySplitGo_append_ws _ [' '] [] (by intro c hc; simp at hc; subst hc; decide)]
    exact pySplit_joinSp _ hgood

/-! ## Characterization of the init fold -/

/-- Running the init loop from any starting registry appends, per
field, the lower-cased names of the sections whose respective stripped
path value is non-empty. -/
theorem initFold_characterization (sections : List (Str × DirSection)) :
    ∀ st : Registry,
      (sections.foldl (fun st p => initDir st p.fst p.snd) st).supported
          = st.supported ++ sections.map (fun p => pyLower p.fst)
      ∧ (sections.foldl (fun st p => initDir st p.fst p.snd) st).truecaserDirs
          = st.truecaserDirs ++ (sections.filter
              (fun p => decide (0 < (stripStr p.snd.truecaser_model).length))).map
              (fun p => pyLower p.fst)
      ∧ (sections.foldl (fun st p => initDir st p.fst p.snd) st).bpeDirs
          = st.bpeDirs ++ (sections.filter
              (fun p => decide (0 < (stripStr p.snd.bpe_codes).length))).map
              (fun p => pyLower p.fst)
      ∧ (sections.foldl (fun st p => initDir st p.fst p.snd) st).spDirs
          = st.spDirs ++ (sections.filter
              (fun p => decide (0 < (stripStr p.snd.sentencepiece_model).length))).map
              (fun p => pyLower p.fst) := by
  induction sections with
  | nil => intro st; simp
  | cons p ps ih =>
    intro st
    obtain ⟨h1, h2, h3, h4⟩ := ih (initDir st p.fst p.snd)
    simp only [List.foldl_cons, List.map_cons, List.filter_cons]
    refine ⟨?_, ?_, ?_, ?_⟩
    · rw [h1]
      simp [initDir]
    · rw [h2]
      by_cases hp : 0 < (stripStr p.snd.truecaser_model).length <;>
        simp [initDir, hp]
    · rw [h3]
      by_cases hp : 0 < (stripStr p.snd.bpe_codes).length <;>
        simp [initDir, hp]
    · rw [h4]
      by_cases hp : 0 < (stripStr p.snd.sentencepiece_model).length <;>
        simp [initDir, hp]

/-! ## Claims -/

/-- C1, counterexample: a direction configured with both a BPE codes
path and a SentencePiece model path, and one configured with neither,
both make initialization COMPLETE - the first is registered in both
subtokenizer maps, the second in neither - instead of raising a
ConfigurationError at build time. -/
theorem C1_counterexample :
    initRegistry [("en-de".toList, bothSection)] =
      { supported := ["en-de".toList], langs := ["en".toList, "de".toList],
        truecaserDirs := [], bpeDirs := ["en-de".toList], spDirs := ["en-de".toList] }
    ∧ initRegistry [("en-fr".toList, neitherSection)] =
      { supported := ["en-fr".toList], langs := ["en".toList, "fr".toList],
        truecaserDirs := [], bpeDirs := [], spDirs := [] } := by
  exact ⟨by decide, by decide⟩

/-- C1, amended: the init function performs no mutual-exclusivity
validation and raises no configuration error; it always completes,
registering every configured direction (lower-cased) as supported, a
BPE encoder exactly for the directions whose stripped bpe_codes value
is non-empty and a SentencePiece model exactly for those whose
stripped sentencepiece_model value is non-empty - so a direction
configured with both paths is registered with both subtokenizers and
one with neither is registered with none, deferring the problem to
request time. -/
theorem C1_amended_init_registers_by_path (sections : List (Str × DirSection)) :
    (initRegistry sections).supported = sections.map (fun p => pyLower p.fst)
    ∧ (initRegistry sections).truecaserDirs
        = (sections.filter
            (fun p => decide (0 < (stripStr p.snd.truecaser_model).length))).map
            (fun p => pyLower p.fst)
    ∧ (initRegistry sections).bpeDirs
        = (sections.filter
            (fun p => decide (0 < (stripStr p.snd.bpe_codes).length))).map
            (fun p => pyLower p.fst)
    ∧ (initRegistry sections).spDirs
        = (sections.filter
            (fun p => decide (0 < (stripStr p.snd.sentencepiece_model).length))).map
            (fun p => pyLower p.fst) := by
  have h := initFold_characterization sections emptyRegistry
  simpa [initRegistry, emptyRegistry] using h


/-- C2: with the Catalan language flag, MosesDetokenizerExtended
detokenizes by chaining the base detokenization as French, a split on
the single space character, and the base detokenization as Spanish,
and the language flag is ca again after the call; with any other
language flag the result is the base detokenization under the
instance's own language and the flag is untouched. -/
theorem C2_catalan_detok_chain (base : Str → List Str → Bool → Bool → Str)
    (lang : Str) (tokens : List Str) (rs un : Bool) :
    detokenizeExt base "ca".toList tokens rs un
      = (base "es".toList (splitSingleSpace (base "fr".toList tokens rs un)) rs un,
         "ca".toList)
    ∧ (lang ≠ "ca".toList →
        detokenizeExt base lang tokens rs un = (base lang tokens rs un, lang)) := by
  constructor
  · rfl
  · intro h
    unfold detokenizeExt
    split
    · exact absurd (by assumption) h
    · rfl

/-- C2, witness: the non-Catalan branch at a concrete base,
language and token list. -/
theorem C2_witness :
    detokenizeExt (fun _ toks _ _ => joinSp toks) "en".toList ["a".toList] true true
      = (joinSp ["a".toList], "en".toList) :=
  (C2_catalan_detok_chain (fun _ toks _ _ => joinSp toks) "en".toList ["a".toList]
    true true).2 (by decide)

/-- C3, counterexample: with en-de the only supported direction, the
case variant EN-DE is accepted by the preprocess endpoint (which
lower-cases) but REJECTED as unsupported by the postprocess endpoint
(which looks the direction up verbatim), so case-insensitive lookup
does not hold for every request. -/
theorem C3_counterexample :
    preprocessGet demoApp (some "EN-DE".toList) (some "hi".toList)
      = Except.ok "hi".toList
    ∧ postprocessGet demoApp (some "EN-DE".toList) (some "hi".toList)
      = Except.error ServerError.unsupportedDirection :=
  ⟨rfl, rfl⟩

/-- C3, amended: the registry stores all direction keys lower-cased
and the PREPROCESS endpoint lower-cases the direction argument before
lookup, resolving a case variant to the lower-cased direction's
resources; the POSTPROCESS endpoint uses the argument verbatim, so a
direction not stored in its given spelling is rejected there. -/
theorem C3_amended_case_handling (app : App) :
    (∀ td s, pyLower td ∈ app.reg.supported →
      preprocessGet app (some td) (some s)
        = Except.ok (preprocess_sentence app.ext app.cfg app.reg.truecaserDirs s
            (pyLower td) (subtokTypeOf app.reg (pyLower td))))
    ∧ (∀ td arg, td ∉ app.reg.supported →
        postprocessGet app (some td) arg
          = Except.error ServerError.unsupportedDirection) := by
  constructor
  · intro td s h
    simp [preprocessGet, h]
  · intro td arg h
    simp [postprocessGet, h]

/-- C3, witness: both halves of the amended statement at the concrete
service instance and the case-variant direction EN-DE. -/
theorem C3_witness :
    preprocessGet demoApp (some "EN-DE".toList) (some "ok".toList)
      = Except.ok (preprocess_sentence demoApp.ext demoApp.cfg
          demoApp.reg.truecaserDirs "ok".toList (pyLower "EN-DE".toList)
          (subtokTypeOf demoApp.reg (pyLower "EN-DE".toList)))
    ∧ postprocessGet demoApp (some "EN-DE".toList) (some "ok".toList)
      = Except.error ServerError.unsupportedDirection :=
  ⟨(C3_amended_case_handling demoApp).1 "EN-DE".toList "ok".toList (by decide),
   (C3_amended_case_handling demoApp).2 "EN-DE".toList (some "ok".toList) (by decide)⟩

/-- C4: on a token list of length at least three whose first token
carries a tag signature and whose third does not, the two-token
protection loop removes exactly the first two tokens and leaves the
rest unchanged; and whenever the leading token of at least two carries
a signature the loop removes two tokens and repeats. -/
theorem C4_protect_leading_two_token (a b c : Str) (rest : List Str)
    (ha : hasTagSig a = true) (hc : hasTagSig c = false) :
    protectLeading2 (a :: b :: c :: rest) = ([a, b], c :: rest)
    ∧ (∀ (x y : Str) (l : List Str), hasTagSig x = true →
        protectLeading2 (x :: y :: l)
          = (x :: y :: (protectLeading2 l).fst, (protectLeading2 l).snd)) := by
  constructor
  · have h2 : protectLeading2 (c :: rest) = ([], c :: rest) := by
      cases rest with
      | nil => rfl
      | cons e l => simp [protectLeading2, hc]
    simp [protectLeading2, ha, h2]
  · intro x y l hx
    simp [protectLeading2, hx]

/-- C4, witness: the specification's four-token example, a tag split
into two tokens followed by two content tokens. -/
theorem C4_witness :
    protectLeading2 ["TAG_part1".toList, "TAG_part2".toList,
        "hello".toList, "world".toList]
      = (["TAG_part1".toList, "TAG_part2".toList],
         ["hello".toList, "world".toList]) :=
  (C4_protect_leading_two_token "TAG_part1".toList
    "TAG_part2".toList "hello".toList ["world".toList]
    (by decide) (by decide)).1

/-- C6: postprocessing detokenizes exactly on the BPE path - with the
target language's detokenizer and unescape set to the direction's
escape_xml_symbols flag - returns the casing-stage string unchanged on
the SentencePiece path, and never consults the detokenizer for a
non-BPE subtokenization type. -/
theorem C6_detok_iff_bpe (ext : Externals) (cfg : Str → DirFlags) (tds : List Str)
    (s d : Str) :
    postprocess_sentence ext cfg tds s d (some SubtokType.BPE)
      = ext.detokenize (targetLangOf d) ((cfg d).escape_xml_symbols)
          (postprocessCasing ext tds d s).snd
    ∧ postprocess_sentence ext cfg tds s d (some SubtokType.SENTENCE_PIECE)
      = (postprocessCasing ext tds d s).fst
    ∧ (∀ subtok, subtok ≠ some SubtokType.BPE → ∀ f g,
        postprocess_sentence (withDetokenize ext f) cfg tds s d subtok
          = postprocess_sentence (withDetokenize ext g) cfg tds s d subtok) := by
  refine ⟨rfl, rfl, ?_⟩
  intro subtok h f g
  simp [postprocess_sentence, withDetokenize, postprocessCasing, detruecaseStage, h]

/-- C6, witness: the never-consulted clause at a concrete state, with
subtokenization type None and two different detokenizers. -/
theorem C6_witness :
    postprocess_sentence (withDetokenize constExternals (fun _ _ _ => []))
        demoApp.cfg [] "a".toList "en-de".toList none
      = postprocess_sentence (withDetokenize constExternals (fun _ _ toks => joinSp toks))
        demoApp.cfg [] "a".toList "en-de".toList none :=
  (C6_detok_iff_bpe constExternals demoApp.cfg [] "a".toList "en-de".toList).2.2
    none (by decide) (fun _ _ _ => []) (fun _ _ toks => joinSp toks)

/-- C8, counterexample: a request with a present but EMPTY sentence is
not rejected - both endpoints process it and answer with a transformed
(here empty) string instead of signalling an error. -/
theorem C8_counterexample :
    preprocessGet demoApp (some "en-de".toList) (some []) = Except.ok []
    ∧ postprocessGet demoApp (some "en-de".toList) (some []) = Except.ok [] :=
  ⟨rfl, rfl⟩

/-- C8, amended: the endpoints reject only a MISSING sentence argument
(the HTTP 400 missing-sentence error); an empty-but-present sentence
is accepted and processed, and the endpoint returns a transformed
string for it. -/
theorem C8_amended_missing_vs_empty (app : App) (td1 td2 : Str)
    (h1 : pyLower td1 ∈ app.reg.supported) (h2 : td2 ∈ app.reg.supported) :
    preprocessGet app (some td1) none = Except.error ServerError.missingSentence
    ∧ postprocessGet app (some td2) none = Except.error ServerError.missingSentence
    ∧ (∃ out, preprocessGet app (some td1) (some []) = Except.ok out)
    ∧ (∃ out, postprocessGet app (some td2) (some []) = Except.ok out) := by
  refine ⟨?_, ?_, ?_, ?_⟩
  · simp [preprocessGet, h1]
  · simp [postprocessGet, h2]
  · exact ⟨preprocess_sentence app.ext app.cfg app.reg.truecaserDirs []
      (pyLower td1) (subtokTypeOf app.reg (pyLower td1)), by simp [preprocessGet, h1]⟩
  · exact ⟨postprocess_sentence app.ext app.cfg app.reg.truecaserDirs []
      td2 (subtokTypeOf app.reg td2), by simp [postprocessGet, h2]⟩

/-- C8, witness: the amended statement at the concrete service
instance. -/
theorem C8_witness :
    preprocessGet demoApp (some "EN-DE".toList) none
      = Except.error ServerError.missingSentence :=
  (C8_amended_missing_vs_empty demoApp "EN-DE".toList "en-de".toList
    (by decide) (by decide)).1

/-- C9: on a token list of length exactly one neither protection loop
removes anything - whatever the token, a tag among them - so the lone
token reaches the truecaser and the detruecaser unprotected. -/
theorem C9_single_token_unprotected (t : Str) :
    protectLeading2 [t] = ([], [t])
    ∧ protectLeading1 [t] = ([], [t])
    ∧ (∀ tc : Str → List Str, truecaseStage tc [t] = tc t)
    ∧ (∀ dtc : Str → List Str, detruecaseStage dtc [t] = dtc t) := by
  refine ⟨rfl, rfl, ?_, ?_⟩
  · intro tc
    simp [truecaseStage, protectLeading2, joinSp]
  · intro dtc
    simp [detruecaseStage, protectLeading1, joinSp]

/-- C10: a direction registered in both subtokenizer maps resolves to
BPE (membership in bpe_encoder is tested first), and neither
preprocessing nor postprocessing of such a direction consults the
SentencePiece model. -/
theorem C10_bpe_tiebreak (reg : Registry) (d : Str)
    (hb : d ∈ reg.bpeDirs) (_hs : d ∈ reg.spDirs) :
    subtokTypeOf reg d = some SubtokType.BPE
    ∧ (∀ ext cfg tds s f g,
        preprocess_sentence (withSpEncode ext f) cfg tds s d (subtokTypeOf reg d)
          = preprocess_sentence (withSpEncode ext g) cfg tds s d (subtokTypeOf reg d))
    ∧ (∀ ext cfg tds s f g,
        postprocess_sentence (withSpEncode ext f) cfg tds s d (subtokTypeOf reg d)
          = postprocess_sentence (withSpEncode ext g) cfg tds s d (subtokTypeOf reg d)) := by
  have hst : subtokTypeOf reg d = some SubtokType.BPE := by
    simp [subtokTypeOf, hb]
  refine ⟨hst, ?_, ?_⟩
  · intro ext cfg tds s f g
    rw [hst]
    simp [preprocess_sentence, withSpEncode, normStage, truecaseStage]
  · intro ext cfg tds s f g
    rw [hst]
    simp [postprocess_sentence, withSpEncode, postprocessCasing, detruecaseStage]

/-- C10, witness: a registry whose single direction names both
subtokenizer paths resolves it to BPE. -/
theorem C10_witness :
    subtokTypeOf (initRegistry [("x-y".toList, bothSection)]) "x-y".toList
      = some SubtokType.BPE :=
  (C10_bpe_tiebreak (initRegistry [("x-y".toList, bothSection)]) "x-y".toList
    (by decide) (by decide)).1

/-- The SentencePiece tag padding is the identity on a string free of
tag marker characters. -/
theorem spPadTags_noTags (s : Str) (h : ∀ c ∈ s, isTagChar c = false) :
    spPadTags s = s := by
  induction s with
  | nil => rfl
  | cons c rest ih =>
    cases rest with
    | nil => rfl
    | cons c2 r2 =>
      have hc : isTagChar c = false := h c (by simp)
      simp only [spPadTags, hc, Bool.false_and, Bool.false_eq_true, if_false]
      rw [ih (fun x hx => h x (by simp [hx]))]

/-- C7: for every direction with no truecaser, the round trip
postprocess of preprocess returns the original sentence up to
whitespace normalization (equal token sequences under the whitespace
split), on each of the three subtokenization paths, GIVEN that the
external black boxes behave as inverses on the sentence.  BPE path:
the BPE-encoded normalized sentence contains no tag-signature tokens,
and detokenizing its token list with the target language's detokenizer
recovers the sentence up to whitespace.  SentencePiece path: the
normalized sentence is tag-free, and encoding it, minus orphaned
word-boundary marker tokens, yields exactly the whitespace token list
of the sentence (the no-out-of-vocabulary assumption - postprocess
returns the token string unchanged, so pieces are never re-merged).
No subtokenizer: normalization preserves the sentence up to
whitespace.  The in-scope content is that the glue - the tag merge and
strip, the tag padding, the marker filter, the joins and splits and
the pass-through plumbing - loses nothing further. -/
theorem C7_roundtrip (ext : Externals) (cfg : Str → DirFlags) (tds : List Str)
    (d s : Str) (hTc : d ∉ tds) :
    ((∀ t ∈ pySplit (ext.bpe_process_line d (normStage ext cfg d s)),
          hasTagSig t = false) →
      pySplit (ext.detokenize (targetLangOf d) ((cfg d).escape_xml_symbols)
          (pySplit (ext.bpe_process_line d (normStage ext cfg d s)))) = pySplit s →
      pySplit (postprocess_sentence ext cfg tds
          (preprocess_sentence ext cfg tds s d (some SubtokType.BPE))
          d (some SubtokType.BPE))
        = pySplit s)
    ∧ ((∀ c ∈ normStage ext cfg d s, isTagChar c = false) →
      (ext.sp_encode d (normStage ext cfg d s)).filter (fun t => t ≠ ['▁'])
          = pySplit s →
      pySplit (postprocess_sentence ext cfg tds
          (preprocess_sentence ext cfg tds s d (some SubtokType.SENTENCE_PIECE))
          d (some SubtokType.SENTENCE_PIECE))
        = pySplit s)
    ∧ (pySplit (normStage ext cfg d s) = pySplit s →
      pySplit (postprocess_sentence ext cfg tds
          (preprocess_sentence ext cfg tds s d none) d none)
        = pySplit s) := by
  refine ⟨?_, ?_, ?_⟩
  · intro hTagFree hInv
    set toks := pySplit (ext.bpe_process_line d (normStage ext cfg d s)) with htoks
    have hgood : ∀ t ∈ toks, t ≠ [] ∧ ∀ c ∈ t, isPyWs c = false := by
      intro t ht
      rw [htoks] at ht
      exact pySplitGo_tokens_good _ [] (by simp) t ht
    have hpre : preprocess_sentence ext cfg tds s d (some SubtokType.BPE)
        = stripStr (mergeTagTokens toks) := by
      simp [preprocess_sentence, hTc, htoks]
    have hsplit : pySplit (stripStr (mergeTagTokens toks)) = toks :=
      pySplit_strip_merge toks hgood hTagFree
    have hpost : postprocess_sentence ext cfg tds (stripStr (mergeTagTokens toks)) d
          (some SubtokType.BPE)
        = ext.detokenize (targetLangOf d) ((cfg d).escape_xml_symbols) toks := by
      simp only [postprocess_sentence, postprocessCasing]
      rw [if_neg hTc]
      simp [hsplit]
    rw [hpre, hpost]
    exact hInv
  · intro hNoTag hSp
    simp only [ne_eq, decide_not] at hSp
    have hpadeq : spPadTags (normStage ext cfg d s) = normStage ext cfg d s :=
      spPadTags_noTags _ hNoTag
    have hpre : preprocess_sentence ext cfg tds s d (some SubtokType.SENTENCE_PIECE)
        = joinSp (pySplit s) := by
      simp [preprocess_sentence, hTc, hpadeq]
      rw [hSp]
    have hpost : postprocess_sentence ext cfg tds (joinSp (pySplit s)) d
          (some SubtokType.SENTENCE_PIECE)
        = joinSp (pySplit s) := by
      simp only [postprocess_sentence, postprocessCasing]
      rw [if_neg hTc]
      simp
    rw [hpre, hpost]
    exact pySplit_joinSp (pySplit s)
      (fun t ht => pySplitGo_tokens_good s [] (by simp) t ht)
  · intro hNorm
    have hpre : preprocess_sentence ext cfg tds s d none
        = normStage ext cfg d s := by
      simp [preprocess_sentence, hTc]
    have hpost : postprocess_sentence ext cfg tds (normStage ext cfg d s) d none
        = normStage ext cfg d s := by
      simp only [postprocess_sentence, postprocessCasing]
      rw [if_neg hTc]
      simp
    rw [hpre, hpost]
    exact hNorm

/-- C7, witness: the round trip at concrete sentences and concrete
inverse external components, one instance per subtokenization path. -/
theorem C7_witness :
    (pySplit (postprocess_sentence constExternals demoApp.cfg []
        (preprocess_sentence constExternals demoApp.cfg [] "hello world".toList
          "en-de".toList (some SubtokType.BPE))
        "en-de".toList (some SubtokType.BPE))
      = pySplit "hello world".toList)
    ∧ (pySplit (postprocess_sentence constExternals demoApp.cfg []
        (preprocess_sentence constExternals demoApp.cfg [] "hola mon".toList
          "es-ca".toList (some SubtokType.SENTENCE_PIECE))
        "es-ca".toList (some SubtokType.SENTENCE_PIECE))
      = pySplit "hola mon".toList)
    ∧ (pySplit (postprocess_sentence constExternals demoApp.cfg []
        (preprocess_sentence constExternals demoApp.cfg [] "guten tag".toList
          "de-en".toList none) "de-en".toList none)
      = pySplit "guten tag".toList) :=
  ⟨(C7_roundtrip constExternals demoApp.cfg [] "en-de".toList "hello world".toList
      (by decide)).1 (by decide) (by decide),
   (C7_roundtrip constExternals demoApp.cfg [] "es-ca".toList "hola mon".toList
      (by decide)).2.1 (by decide) (by decide),
   (C7_roundtrip constExternals demoApp.cfg [] "de-en".toList "guten tag".toList
      (by decide)).2.2 (by decide)⟩

/-- C5: evaluation of the Catalan tokenizer on the two inputs of the
claim, for every base-stage bundle that is inert on the concrete
strings involved (true of the real sacremoses stages, since the
strings contain no character they rewrite) and whose IsAlnum class
contains the ASCII letters involved.  The input il·lusio tokenizes to
the single token il·lusio as the claim states; but a·B tokenizes to
the tokens a·, ·, B - NOT the claimed a, ·, B - because the
CA_MIDDLE_DOT_NO_LOWER_FOLLOW replacement keeps the matched dot
attached to the preceding word and inserts a second middle dot,
contradicting the code's own comment that the dot is separated out. -/
theorem C5_catalan_middle_dot_eval (base : TokenizerBase)
    (h1 : BaseInertOn base "a·B".toList)
    (h2 : BaseInertOn base "a· · B".toList)
    (h3 : BaseInertOn base "il·lusio".toList)
    (ha : base.isAlnum 'a' = true) (hB : base.isAlnum 'B' = true)
    (hi : base.isAlnum 'i' = true) (hl : base.isAlnum 'l' = true)
    (hu : base.isAlnum 'u' = true) (hs : base.isAlnum 's' = true)
    (ho : base.isAlnum 'o' = true) :
    tokenizeCa base false true "a·B".toList
      = ["a·".toList, "·".toList, "B".toList]
    ∧ tokenizeCa base false true "il·lusio".toList = ["il·lusio".toList] := by
  obtain ⟨d1, a1, m1, c1, f1, n1, t1, r1, e1⟩ := h1
  obtain ⟨d2, a2, m2, c2, f2, n2, t2, r2, e2⟩ := h2
  obtain ⟨d3, a3, m3, c3, f3, n3, t3, r3, e3⟩ := h3
  have hdot : caPadExceptions.contains '·' = true := by decide
  constructor
  · have hpad1 : caMiddleDotSub base.isAlnum "a·B".toList = "a·B".toList := by
      show caMiddleDotSub base.isAlnum ['a', '·', 'B'] = ['a', '·', 'B']
      simp [caMiddleDotSub, ha, hB, hdot]
      intro _ _
      decide
    have hsub1 : caMiddleDotNoLowerSub "a·B".toList = "a· · B".toList := by decide
    have hstrip1 : stripStr "a·B".toList = "a·B".toList := by decide
    have hstrip2 : stripStr "a· · B".toList = "a· · B".toList := by decide
    show pySplit (base.escapeXml (base.restoreMultidots (base.trailingDotApos (stripStr
      (base.dedupSpace (base.handlesNonbreaking (base.frItApostropheSub (base.commaSeparate
      (base.replaceMultidots (caMiddleDotNoLowerSub (caMiddleDotSub base.isAlnum
      (stripStr (base.asciiJunk (base.dedupSpace "a·B".toList))))))))))))))
      = ["a·".toList, "·".toList, "B".toList]
    rw [d1, a1, hstrip1, hpad1, hsub1, m2, c2, f2, n2, d2, hstrip2, t2, r2, e2]
    decide
  · have hpad3 : caMiddleDotSub base.isAlnum "il·lusio".toList = "il·lusio".toList := by
      show caMiddleDotSub base.isAlnum ['i', 'l', '·', 'l', 'u', 's', 'i', 'o']
        = ['i', 'l', '·', 'l', 'u', 's', 'i', 'o']
      simp [caMiddleDotSub, hi, hl, hu, hs, ho, hdot]
      intro _ _
      decide
    have hsub3 : caMiddleDotNoLowerSub "il·lusio".toList = "il·lusio".toList := by decide
    have hstrip3 : stripStr "il·lusio".toList = "il·lusio".toList := by decide
    show pySplit (base.escapeXml (base.restoreMultidots (base.trailingDotApos (stripStr
      (base.dedupSpace (base.handlesNonbreaking (base.frItApostropheSub (base.commaSeparate
      (base.replaceMultidots (caMiddleDotNoLowerSub (caMiddleDotSub base.isAlnum
      (stripStr (base.asciiJunk (base.dedupSpace "il·lusio".toList))))))))))))))
      = ["il·lusio".toList]
    rw [d3, a3, hstrip3, hpad3, hsub3, m3, c3, f3, n3, d3, hstrip3, t3, r3, e3]
    decide

/-- C5, witness: the evaluation at the identity base-stage bundle. -/
theorem C5_witness :
    tokenizeCa inertBase false true "a·B".toList
      = ["a·".toList, "·".toList, "B".toList]
    ∧ tokenizeCa inertBase false true "il·lusio".toList = ["il·lusio".toList] :=
  C5_catalan_middle_dot_eval inertBase
    ⟨rfl, rfl, rfl, rfl, rfl, rfl, rfl, rfl, rfl⟩
    ⟨rfl, rfl, rfl, rfl, rfl, rfl, rfl, rfl, rfl⟩
    ⟨rfl, rfl, rfl, rfl, rfl, rfl, rfl, rfl, rfl⟩
    (by decide) (by decide) (by decide) (by decide) (by decide) (by decide) (by decide)

end TransIns
